import Mathlib

/-!
Shallow embedding of the placeholder engine and the metadata accessor of
`src/main.py` (a docx/PDF curriculum manager), together with theorems that
settle the specification claims about them.  Python strings are modelled as
`List Char`, the two document formats as explicit structures, and the
on-disk state as a map from paths to optional file contents.
-/

namespace CurriculumApp

/-- Visible text is modelled as a list of characters (a Python `str`). -/
abbrev Text := List Char

/-- Characters accepted inside a placeholder name: the character class
`[A-Za-z0-9_]` of `PLACEHOLDER_PATTERN` in `src/main.py`. -/
def isNameChar (c : Char) : Bool :=
  (decide ('A' ≤ c) && decide (c ≤ 'Z')) || (decide ('a' ≤ c) && decide (c ≤ 'z'))
    || (decide ('0' ≤ c) && decide (c ≤ '9')) || (c == '_')

/-- Attempt to match the placeholder pattern (two opening braces, one or more
name characters, two closing braces) at the head of the text, as the Python
regex engine does at one position.  Returns the captured name and the text
after the match.  The greedy repetition has a unique possible extent because
name characters never include a closing brace. -/
def matchPlaceholderAt : Text → Option (Text × Text)
  | '\x7b' :: '\x7b' :: rest =>
    match rest.dropWhile isNameChar with
    | '\x7d' :: '\x7d' :: tail =>
      if rest.takeWhile isNameChar = [] then none
      else some (rest.takeWhile isNameChar, tail)
    | _ => none
  | _ => none

/-- Fuel-indexed body of `findall`: Python `re.findall` for the placeholder
pattern, collecting the captured names of all non-overlapping matches from
left to right; on a failed match the scan advances one character, on a
successful one it continues after the match.  Every step consumes at least
one character, so fuel equal to the length of the text never runs out. -/
def findallAux : Nat → Text → List Text
  | 0, _ => []
  | _ + 1, [] => []
  | fuel + 1, c :: rest =>
    match matchPlaceholderAt (c :: rest) with
    | some (nm, tail) => nm :: findallAux fuel tail
    | none => findallAux fuel rest

/-- Python `PLACEHOLDER_PATTERN.findall(text)`. -/
def findall (s : Text) : List Text := findallAux s.length s

/-- Fuel-indexed body of `strReplace`: Python `str.replace`, substituting all
non-overlapping occurrences of `pat` by `val`, scanning left to right and
continuing after each inserted `val` without re-scanning it.  The guard on an
empty `pat` is never hit by the program, whose patterns always start with a
brace. -/
def strReplaceAux : Nat → Text → Text → Text → Text
  | 0, _, _, s => s
  | fuel + 1, pat, val, s =>
    match s with
    | [] => []
    | c :: rest =>
      if pat ≠ [] ∧ pat.isPrefixOf (c :: rest) then
        val ++ strReplaceAux fuel pat val ((c :: rest).drop pat.length)
      else
        c :: strReplaceAux fuel pat val rest

/-- Python `s.replace(pat, val)` for a non-empty `pat`. -/
def strReplace (pat val s : Text) : Text := strReplaceAux s.length pat val s

/-- Literal placeholder string built for a key, Python
`f"..."` with the key between doubled braces in `replace_in_paragraphs`. -/
def placeholderOf (key : Text) : Text :=
  '\x7b' :: '\x7b' :: (key ++ ['\x7d', '\x7d'])

/-- Sequential application of a replacement map to a text: the loop
`for key, value in replacements.items(): new_text = new_text.replace(...)`
of `replace_in_paragraphs`, with the map as an association list in Python
dict insertion order. -/
def applyReplacements (repl : List (Text × Text)) (t : Text) : Text :=
  repl.foldl (fun acc kv => strReplace (placeholderOf kv.1) kv.2 acc) t

/-- Claim-side definition, following the specification words: one single pass
over the original text in which every placeholder token whose name is a key
of the map is replaced by the map's value, every other token is left
verbatim, and inserted values are never re-scanned.  This is the behaviour
the spec ascribes to the substitutor; it is compared against
`applyReplacements`, the behaviour of the code. -/
def onePassSubstituteAux : Nat → List (Text × Text) → Text → Text
  | 0, _, s => s
  | _ + 1, _, [] => []
  | fuel + 1, repl, c :: rest =>
    match matchPlaceholderAt (c :: rest) with
    | some (nm, tail) =>
      match repl.lookup nm with
      | some v => v ++ onePassSubstituteAux fuel repl tail
      | none => placeholderOf nm ++ onePassSubstituteAux fuel repl tail
    | none => c :: onePassSubstituteAux fuel repl rest

/-- One-pass, non-recursive substitution as described by the specification. -/
def onePassSubstitute (repl : List (Text × Text)) (s : Text) : Text :=
  onePassSubstituteAux s.length repl s

/-- Decides whether `pat` occurs as a contiguous substring of `s`. -/
def occursB (pat : Text) : Text → Bool
  | [] => pat.isPrefixOf []
  | c :: rest => pat.isPrefixOf (c :: rest) || occursB pat rest

/-- Fuel-indexed splitting of a text on the non-overlapping occurrences of
`pat`, left to right: the pieces between consecutive occurrences, in order.
Joining the pieces with the replacement value reconstructs one pass of
`str.replace`. -/
def splitOnTokAux : Nat → Text → Text → List Text
  | 0, _, s => [s]
  | _ + 1, _, [] => [[]]
  | fuel + 1, pat, c :: rest =>
    if pat ≠ [] ∧ pat.isPrefixOf (c :: rest) then
      [] :: splitOnTokAux fuel pat ((c :: rest).drop pat.length)
    else
      match splitOnTokAux fuel pat rest with
      | [] => [[c]]
      | s1 :: ss => (c :: s1) :: ss

/-- Pieces of `s` between the non-overlapping occurrences of `pat`. -/
def splitOnTok (pat s : Text) : List Text := splitOnTokAux s.length pat s

/-- Concatenation of a list of texts with a separator between them. -/
def joinWith (sep : Text) : List Text → Text
  | [] => []
  | [s] => s
  | s :: t :: rest => s ++ sep ++ joinWith sep (t :: rest)

/-- A run of a docx paragraph: a piece of text carrying an opaque
character-formatting value; value 0 stands for the default formatting that
`paragraph.add_run` attaches to a newly created run. -/
structure Run where
  text : Text
  fmt : Nat
deriving DecidableEq

/-- A docx paragraph: an ordered list of runs. -/
structure Paragraph where
  runs : List Run
deriving DecidableEq

/-- Visible text of a paragraph: the concatenation of its runs' text, in
order (python-docx `paragraph.text`). -/
def Paragraph.text (p : Paragraph) : Text := (p.runs.map Run.text).flatten

/-- A docx section, carrying its header and footer paragraphs. -/
structure DocSection where
  header : List Paragraph
  footer : List Paragraph
deriving DecidableEq

/-- A docx document as traversed by `src/main.py`: body paragraphs, tables
(a table is a list of rows, a row a list of cells, a cell a list of
paragraphs) and sections. -/
structure Document where
  paragraphs : List Paragraph
  tables : List (List (List (List Paragraph)))
  sections : List DocSection
deriving DecidableEq

/-- Every paragraph visited by the scanner and the substitutor, in traversal
order: body, then tables row by row and cell by cell, then each section's
header and footer. -/
def scannedParagraphs (d : Document) : List Paragraph :=
  d.paragraphs ++ d.tables.flatten.flatten.flatten
    ++ (d.sections.map (fun s => s.header ++ s.footer)).flatten

/-- All names captured by the placeholder pattern across the visible text of
every scanned paragraph, in traversal order, with multiplicity. -/
def allMatches (d : Document) : List Text :=
  (scannedParagraphs d).foldl (fun acc p => acc ++ findall p.text) []

/-- Embedding of `extract_placeholders`: the names are accumulated into a
set (modelled as the deduplicated match list) and returned sorted. -/
def extract_placeholders (d : Document) : List Text :=
  List.insertionSort (· ≤ ·) (allMatches d).dedup

/-- Embedding of the inner loop of `replace_in_paragraphs` for one
paragraph: if the substituted text differs from the original, all runs are
removed and a single default-formatted run with the new text is added;
otherwise the paragraph is left untouched. -/
def replaceParagraph (repl : List (Text × Text)) (p : Paragraph) : Paragraph :=
  let originalText := p.text
  let newText := applyReplacements repl originalText
  if newText ≠ originalText then Paragraph.mk [Run.mk newText 0] else p

/-- Embedding of `replace_in_paragraphs` over a list of paragraphs. -/
def replace_in_paragraphs (repl : List (Text × Text)) (ps : List Paragraph) : List Paragraph :=
  ps.map (replaceParagraph repl)

/-- Document-level substitution of `replace_placeholders`: the same
traversal as the scanner, substituting in body, tables and every section's
header and footer. -/
def replaceInDocument (repl : List (Text × Text)) (d : Document) : Document :=
  { paragraphs := replace_in_paragraphs repl d.paragraphs
    tables := d.tables.map (fun t => t.map (fun row => row.map (replace_in_paragraphs repl)))
    sections := d.sections.map
      (fun s => DocSection.mk (replace_in_paragraphs repl s.header)
        (replace_in_paragraphs repl s.footer)) }

/-- The four-field metadata record the accessor exposes; its fields carry the
dict keys DC:TITLE, DC:CREATOR, CP:DESCRIPTION and CP:CATEGORY that
`read_docx_metadata` and `read_pdf_metadata` return. -/
structure MetadataRecord where
  title : String
  creator : String
  description : String
  category : String
deriving DecidableEq

/-- Core properties of a docx document as accessed through python-docx
`document.core_properties`; an absent/null stored value is `none`. -/
structure CoreProperties where
  title : Option String
  author : Option String
  creator : Option String
  description : Option String
  category : Option String
deriving DecidableEq

/-- A docx file on disk: its core properties and its body content. -/
structure DocxFile where
  props : CoreProperties
  content : Document
deriving DecidableEq

/-- A pdf file on disk: its pages (opaque identifiers) and its
document-information dictionary; an absent information dictionary is the
empty list, which `reader.metadata or ...` treats like an empty dict. -/
structure PdfFile where
  pages : List Nat
  info : List (String × String)
deriving DecidableEq

/-- Python `x or dflt` where `x` is an optional string: `None` and the empty
string are falsy. -/
def pyOrOpt (x : Option String) (dflt : String) : String :=
  match x with
  | none => dflt
  | some s => if s = "" then dflt else s

/-- Python `x or y or dflt` for two optional strings. -/
def pyOrOpt2 (x y : Option String) (dflt : String) : String :=
  match x with
  | none => pyOrOpt y dflt
  | some s => if s = "" then pyOrOpt y dflt else s

/-- Python `v or dflt` for plain strings. -/
def pyOrStr (v dflt : String) : String := if v = "" then dflt else v

/-- Python `v or None` for a string: the empty string becomes `None`. -/
def pyStrOrNone (v : String) : Option String := if v = "" then none else some v

/-- Python `d.get(k, dflt)` on an information dictionary. -/
def dictGetD (d : List (String × String)) (k dflt : String) : String :=
  match d.lookup k with
  | some v => v
  | none => dflt

/-- Embedding of `read_docx_metadata`: each field defaults to the empty
string, the creator field falling back from the author property to the
generic creator property. -/
def read_docx_metadata (f : DocxFile) : MetadataRecord :=
  { title := pyOrOpt f.props.title ""
    creator := pyOrOpt2 f.props.author f.props.creator ""
    description := pyOrOpt f.props.description ""
    category := pyOrOpt f.props.category "" }

/-- Property mutation performed by `write_docx_metadata` on the loaded
document before saving: every field is assigned `value or None`, the creator
argument going to both the author and the creator properties. -/
def renderDocxMeta (t c dsc g : String) (f : DocxFile) : DocxFile :=
  { f with props :=
      { title := pyStrOrNone t
        author := pyStrOrNone c
        creator := pyStrOrNone c
        description := pyStrOrNone dsc
        category := pyStrOrNone g } }

/-- Embedding of `read_pdf_metadata`: the four info entries, each defaulting
to the empty string. -/
def read_pdf_metadata (f : PdfFile) : MetadataRecord :=
  { title := dictGetD f.info "/Title" ""
    creator := dictGetD f.info "/Author" ""
    description := dictGetD f.info "/Subject" ""
    category := dictGetD f.info "/Category" "" }

/-- Document produced by `write_pdf_metadata` before it is saved: a fresh
writer receives every page of the original, then `add_metadata` attaches
exactly the four entries, each value passed through `v or ""`. -/
def renderPdfMeta (t c dsc g : String) (f : PdfFile) : PdfFile :=
  { pages := f.pages
    info := [("/Title", pyOrStr t ""), ("/Author", pyOrStr c ""),
      ("/Subject", pyOrStr dsc ""), ("/Category", pyOrStr g "")] }

/-- Document produced by `clear_pdf_metadata` before it is saved: a fresh
writer receives every page of the original and no metadata is attached. -/
def renderPdfClear (f : PdfFile) : PdfFile :=
  { pages := f.pages, info := [] }

/-- On-disk state for one file format: a map from paths to the file stored
there, `none` meaning no file at that path. -/
def FS (α : Type) : Type := Text → Option α

/-- State after storing `v` at path `p` (or removing the file when `v` is
`none`). -/
def fsUpdate (fs : FS α) (p : Text) (v : Option α) : FS α :=
  fun q => if q = p then v else fs q

/-- Failure injection point for a metadata write: the source read, the save
of the rendered document to the temporary file, the final move, or no
failure. -/
inductive FailPoint
  | readFail
  | saveFail
  | moveFail
  | noFail
deriving DecidableEq

/-- Embedding of the shared write discipline of `write_docx_metadata`,
`write_pdf_metadata` and `clear_pdf_metadata`: load the source file from
`path`, render the new document, save it to the fresh temporary path `tmp`
(`tempfile.NamedTemporaryFile(delete=False)`), and only then
`shutil.move(tmp, path)`.  The returned flag reports success; a failed save
leaves arbitrary `junk` at the temporary path, and any failure before the
move leaves every other path, in particular `path`, untouched. -/
def writeMetaAtomic (render : α → α) (junk : Option α) (fs : FS α)
    (path tmp : Text) (fp : FailPoint) : FS α × Bool :=
  match fs path with
  | none => (fs, false)
  | some file =>
    if fp = FailPoint.readFail then (fs, false)
    else
      let newFile := render file
      if fp = FailPoint.saveFail then (fsUpdate fs tmp junk, false)
      else
        let fs1 := fsUpdate fs tmp (some newFile)
        if fp = FailPoint.moveFail then (fs1, false)
        else (fsUpdate (fsUpdate fs1 tmp none) path (some newFile), true)

/-- Embedding of `write_docx_metadata`. -/
def write_docx_metadata (fs : FS DocxFile) (path tmp : Text) (t c dsc g : String)
    (fp : FailPoint) (junk : Option DocxFile) : FS DocxFile × Bool :=
  writeMetaAtomic (renderDocxMeta t c dsc g) junk fs path tmp fp

/-- Embedding of `clear_docx_metadata`: a call to the writer with all four
fields set to the empty string. -/
def clear_docx_metadata (fs : FS DocxFile) (path tmp : Text)
    (fp : FailPoint) (junk : Option DocxFile) : FS DocxFile × Bool :=
  write_docx_metadata fs path tmp "" "" "" "" fp junk

/-- Embedding of `write_pdf_metadata`. -/
def write_pdf_metadata (gs : FS PdfFile) (path tmp : Text) (t c dsc g : String)
    (fp : FailPoint) (junk : Option PdfFile) : FS PdfFile × Bool :=
  writeMetaAtomic (renderPdfMeta t c dsc g) junk gs path tmp fp

/-- Embedding of `clear_pdf_metadata`: it does not call the writer; it
rebuilds the document page by page and attaches no metadata. -/
def clear_pdf_metadata (gs : FS PdfFile) (path tmp : Text)
    (fp : FailPoint) (junk : Option PdfFile) : FS PdfFile × Bool :=
  writeMetaAtomic renderPdfClear junk gs path tmp fp

/-- Embedding of `replace_placeholders` at the file level: load the template
at `docxPath`, substitute throughout, and save the result at `outputPath`;
`none` when the template cannot be read. -/
def replace_placeholders (fs : FS Document) (docxPath : Text)
    (repl : List (Text × Text)) (outputPath : Text) : Option (FS Document) :=
  match fs docxPath with
  | none => none
  | some d => some (fsUpdate fs outputPath (some (replaceInDocument repl d)))

/-- Errors that an operation can surface.  The first two constructors are
what the program actually raises: Python `ValueError` (raised literally in
the format dispatch of `CurriculumApp`) and exceptions propagated from the
docx/pdf libraries or the file system.  The last four are modelled from the
spec: the error taxonomy the specification names; no class with any of
these names exists anywhere in `src/main.py`. -/
inductive RaisedError
  | valueError (msg : String)
  | libraryFailure (msg : String)
  | documentReadError (msg : String)
  | documentWriteError (msg : String)
  | metadataWriteError (msg : String)
  | unsupportedFormatError (msg : String)
deriving DecidableEq

/-- Membership in the spec's error taxonomy. -/
def inSpecTaxonomy : RaisedError → Bool
  | RaisedError.documentReadError _ => true
  | RaisedError.documentWriteError _ => true
  | RaisedError.metadataWriteError _ => true
  | RaisedError.unsupportedFormatError _ => true
  | _ => false

/-- Python `path.lower()`. -/
def strLower (s : Text) : Text := s.map Char.toLower

/-- Python `s.endswith(suf)`. -/
def endsWithT (s suf : Text) : Bool := suf.isSuffixOf s

/-- Embedding of the dispatch in `CurriculumApp._clear_metadata`: clear docx
metadata for a `.docx` extension, pdf metadata for `.pdf`, and otherwise
raise `ValueError("Formato não suportado")`; a failing clear surfaces the
underlying library or file-system exception. -/
def clearMetadataDispatch (fs : FS DocxFile) (gs : FS PdfFile) (path tmp : Text)
    (fp : FailPoint) : Except RaisedError (FS DocxFile × FS PdfFile) :=
  if endsWithT (strLower path) ".docx".data then
    match clear_docx_metadata fs path tmp fp none with
    | (fs2, true) => Except.ok (fs2, gs)
    | (_, false) => Except.error (RaisedError.libraryFailure "docx")
  else if endsWithT (strLower path) ".pdf".data then
    match clear_pdf_metadata gs path tmp fp none with
    | (gs2, true) => Except.ok (fs, gs2)
    | (_, false) => Except.error (RaisedError.libraryFailure "pdf")
  else Except.error (RaisedError.valueError "Formato não suportado")

/-- Error component of a dispatch outcome, `none` on success. -/
def raisedErrorOf {γ : Type} : Except RaisedError γ → Option RaisedError
  | Except.error e => some e
  | Except.ok _ => none

/-- Sample pdf file carrying a pre-existing producer entry. -/
def pdfSample : PdfFile := PdfFile.mk [1] [("/Producer", "LibX")]

/-- Sample docx file with some pre-existing properties. -/
def docxSample : DocxFile :=
  DocxFile.mk (CoreProperties.mk (some "Old") none (some "Someone") none none)
    (Document.mk [] [] [])

/-- Sample docx file system holding one file. -/
def fsSample : FS DocxFile :=
  fun p => if p = "a.docx".data then some docxSample else none

/-- Sample pdf file system holding one file. -/
def gsSample : FS PdfFile :=
  fun p => if p = "a.pdf".data then some pdfSample else none

/-- Sample template document: one body paragraph holding one placeholder. -/
def docTemplate : Document :=
  Document.mk [Paragraph.mk [Run.mk "\x7b\x7bA\x7d\x7d".data 7]] [] []

/-- Sample document file system holding the template. -/
def fsTemplate : FS Document :=
  fun p => if p = "cv.docx".data then some docTemplate else none

/-- Sample document with the same placeholder name in the body and in a
table cell. -/
def docScanSample : Document :=
  Document.mk [Paragraph.mk [Run.mk "Hi \x7b\x7bNAME\x7d\x7d".data 1]]
    [[[[Paragraph.mk [Run.mk "\x7b\x7bNAME\x7d\x7d again".data 2]]]]] []

/-- Sample document containing no placeholder. -/
def docEmptySample : Document :=
  Document.mk [Paragraph.mk [Run.mk "plain".data 1]] [] []

/-- Folding list appends equals flattening the mapped lists. -/
theorem foldl_append_eq {α β : Type} (f : α → List β) :
    ∀ (l : List α) (init : List β),
      l.foldl (fun a x => a ++ f x) init = init ++ (l.map f).flatten
  | [], init => by simp
  | x :: l, init => by
    simp [List.foldl_cons, foldl_append_eq f l (init ++ f x), List.append_assoc]

/-- Membership in the pooled match list of a document. -/
theorem mem_allMatches {d : Document} {x : Text} :
    x ∈ allMatches d ↔ ∃ p ∈ scannedParagraphs d, x ∈ findall p.text := by
  rw [allMatches, foldl_append_eq]
  simp [List.mem_flatten]

/-- Splitting never produces an empty list of pieces. -/
theorem splitOnTokAux_ne_nil : ∀ (fuel : Nat) (pat s : Text),
    splitOnTokAux fuel pat s ≠ []
  | 0, _, s => by simp [splitOnTokAux]
  | _ + 1, _, [] => by simp [splitOnTokAux]
  | fuel + 1, pat, c :: rest => by
    unfold splitOnTokAux
    split
    · simp
    · split <;> simp

/-- One pass of `str.replace` is the split of its input on the pattern,
joined with the replacement value: every inserted copy of the value comes
from an occurrence of the pattern in that pass's input text. -/
theorem strReplaceAux_eq_joinWith (pat val : Text) (hpat : pat ≠ []) :
    ∀ (fuel : Nat) (s : Text), s.length ≤ fuel →
      strReplaceAux fuel pat val s = joinWith val (splitOnTokAux fuel pat s)
  | 0, s, hle => by
    have hs : s = [] := by
      cases s with
      | nil => rfl
      | cons a l => simp at hle
    subst hs
    simp [strReplaceAux, splitOnTokAux, joinWith]
  | fuel + 1, [], _ => by simp [strReplaceAux, splitOnTokAux, joinWith]
  | fuel + 1, c :: rest, hle => by
    by_cases hc : pat.isPrefixOf (c :: rest)
    · have hp1 : 1 ≤ pat.length := List.length_pos.mpr hpat
      have hdrop : ((c :: rest).drop pat.length).length ≤ fuel := by
        simp only [List.length_drop, List.length_cons] at *
        omega
      have ih := strReplaceAux_eq_joinWith pat val hpat fuel
        ((c :: rest).drop pat.length) hdrop
      obtain ⟨a, as, ha⟩ : ∃ a as,
          splitOnTokAux fuel pat ((c :: rest).drop pat.length) = a :: as := by
        cases h : splitOnTokAux fuel pat ((c :: rest).drop pat.length) with
        | nil => exact absurd h (splitOnTokAux_ne_nil _ _ _)
        | cons a as => exact ⟨a, as, rfl⟩
      simp [strReplaceAux, splitOnTokAux, hpat, hc, ih, ha, joinWith]
    · have hr : rest.length ≤ fuel := by
        simp only [List.length_cons] at hle
        omega
      have ih := strReplaceAux_eq_joinWith pat val hpat fuel rest hr
      obtain ⟨a, as, ha⟩ : ∃ a as, splitOnTokAux fuel pat rest = a :: as := by
        cases h : splitOnTokAux fuel pat rest with
        | nil => exact absurd h (splitOnTokAux_ne_nil _ _ _)
        | cons a as => exact ⟨a, as, rfl⟩
      cases as with
      | nil => simp [strReplaceAux, splitOnTokAux, hc, ih, ha, joinWith]
      | cons b bs => simp [strReplaceAux, splitOnTokAux, hc, ih, ha, joinWith]

/-- Top-level form of the characterization of one `str.replace` pass. -/
theorem strReplace_eq_joinWith (pat val s : Text) (hpat : pat ≠ []) :
    strReplace pat val s = joinWith val (splitOnTok pat s) :=
  strReplaceAux_eq_joinWith pat val hpat s.length s (Nat.le_refl _)

/-- Placeholder literals are never empty. -/
theorem placeholderOf_ne_nil (k : Text) : placeholderOf k ≠ [] := by
  simp [placeholderOf]

/-- A pass of `str.replace` leaves a text without occurrences of the
pattern unchanged. -/
theorem strReplaceAux_of_not_occurs (pat val : Text) :
    ∀ (fuel : Nat) (s : Text), occursB pat s = false →
      strReplaceAux fuel pat val s = s
  | 0, s, _ => rfl
  | _ + 1, [], _ => rfl
  | fuel + 1, c :: rest, h => by
    have h0 : (pat.isPrefixOf (c :: rest) || occursB pat rest) = false := h
    have h1 : pat.isPrefixOf (c :: rest) = false := by
      cases hp : pat.isPrefixOf (c :: rest) <;> simp [hp] at h0 ⊢
    have h2 : occursB pat rest = false := by
      cases hp : occursB pat rest <;> simp [hp] at h0 ⊢
    simp [strReplaceAux, h1, strReplaceAux_of_not_occurs pat val fuel rest h2]

/-- The whole replacement loop leaves a text containing no key's
placeholder unchanged. -/
theorem applyReplacements_of_no_occurs :
    ∀ (repl : List (Text × Text)) (t : Text),
      (∀ kv ∈ repl, occursB (placeholderOf kv.1) t = false) →
      applyReplacements repl t = t
  | [], _, _ => rfl
  | kv :: tl, t, h => by
    have hs : strReplace (placeholderOf kv.1) kv.2 t = t :=
      strReplaceAux_of_not_occurs _ _ _ _ (h kv (List.mem_cons_self kv tl))
    show applyReplacements tl (strReplace (placeholderOf kv.1) kv.2 t) = t
    rw [hs]
    exact applyReplacements_of_no_occurs tl t
      (fun kv2 hkv2 => h kv2 (List.mem_cons_of_mem _ hkv2))

/-- Visible text of a freshly rebuilt single-run paragraph. -/
theorem text_single_run (t : Text) (n : Nat) :
    (Paragraph.mk [Run.mk t n]).text = t := by
  simp [Paragraph.text]

/-- Claim C1, counterexample: with the map sending A to the literal text of
placeholder B (A coming before B in insertion order), the substitutor turns the lone
placeholder for A into the replacement for B: the value inserted for key A is
re-scanned and substituted by key B, while the one-pass non-recursive
substitution the claim describes stops at the inserted placeholder text. -/
theorem C1_counterexample :
    applyReplacements [("A".data, "\x7b\x7bB\x7d\x7d".data), ("B".data, "x".data)]
        "\x7b\x7bA\x7d\x7d".data = "x".data
    ∧ onePassSubstitute [("A".data, "\x7b\x7bB\x7d\x7d".data), ("B".data, "x".data)]
        "\x7b\x7bA\x7d\x7d".data = "\x7b\x7bB\x7d\x7d".data
    ∧ ("x".data : Text) ≠ "\x7b\x7bB\x7d\x7d".data := by decide

/-- Claim C1, amended: each key's replacement is one left-to-right pass of
literal substring substitution on that key's input text — the pieces of the
input between occurrences of the key's placeholder, joined with the key's
value, so no single pass re-scans the values it inserts — but the keys are
applied sequentially in map order, each pass scanning the full output of the
previous one, so a value inserted by an earlier key can be substituted by a
later key. -/
theorem C1_amended (repl : List (Text × Text)) (t : Text) :
    applyReplacements repl t
      = repl.foldl (fun acc kv => joinWith kv.2 (splitOnTok (placeholderOf kv.1) acc)) t := by
  induction repl generalizing t with
  | nil => rfl
  | cons kv tl ih =>
    show applyReplacements tl (strReplace (placeholderOf kv.1) kv.2 t) = _
    rw [List.foldl_cons, strReplace_eq_joinWith _ _ _ (placeholderOf_ne_nil kv.1)] at *
    exact ih _

/-- Claim C5: the scanner's result is sorted and duplicate-free, its members
are exactly the names captured by the placeholder pattern in the visible
text of some scanned paragraph (body, table cells, or a section's header or
footer), and a document whose pooled match list is empty yields the empty
list. -/
theorem C5_scanner (d : Document) :
    (extract_placeholders d).Sorted (· ≤ ·)
    ∧ (extract_placeholders d).Nodup
    ∧ (∀ nm, nm ∈ extract_placeholders d ↔ ∃ p ∈ scannedParagraphs d, nm ∈ findall p.text)
    ∧ (allMatches d = [] → extract_placeholders d = []) := by
  refine ⟨List.sorted_insertionSort _ _, ?_, ?_, ?_⟩
  · exact (List.perm_insertionSort _ _).nodup_iff.mpr (List.nodup_dedup _)
  · intro nm
    rw [extract_placeholders, List.mem_insertionSort, List.mem_dedup]
    exact mem_allMatches
  · intro h
    simp [extract_placeholders, h, List.insertionSort]

/-- Witness for C5 at concrete documents: a name appearing both in the body
and in a table cell is reported (once, by the nodup conjunct), and a
placeholder-free document yields the empty list. -/
theorem C5_scanner_witness :
    ("NAME".data ∈ extract_placeholders docScanSample)
    ∧ extract_placeholders docEmptySample = [] := by
  constructor
  · exact ((C5_scanner docScanSample).2.2.1 "NAME".data).mpr
      ⟨Paragraph.mk [Run.mk "Hi \x7b\x7bNAME\x7d\x7d".data 1], by decide, by decide⟩
  · exact (C5_scanner docEmptySample).2.2.2 (by decide)

/-- Claim C6, counterexample: on the paragraph text with one placeholder for
NAME, the map sending NAME to the literal placeholder text of CITY and CITY
to Lisbon produces the fully expanded text, not the text the claim describes
in which every occurrence of a mapped placeholder in the original text is
replaced once and nothing else changes. -/
theorem C6_counterexample :
    (replaceParagraph [("NAME".data, "\x7b\x7bCITY\x7d\x7d".data), ("CITY".data, "Lisbon".data)]
        (Paragraph.mk [Run.mk "Dear \x7b\x7bNAME\x7d\x7d.".data 3])).text
      = "Dear Lisbon.".data
    ∧ onePassSubstitute [("NAME".data, "\x7b\x7bCITY\x7d\x7d".data), ("CITY".data, "Lisbon".data)]
        "Dear \x7b\x7bNAME\x7d\x7d.".data
      = "Dear \x7b\x7bCITY\x7d\x7d.".data
    ∧ ("Dear Lisbon.".data : Text) ≠ "Dear \x7b\x7bCITY\x7d\x7d.".data := by decide

/-- Claim C6, amended: after substitution the visible text of each paragraph
equals the result of applying, for each key in map order successively, one
pass of literal replacement of the key's placeholder by its value (so a
value inserted by an earlier key may be substituted by a later key); on the
spec's example this yields exactly the stated output and the unmapped ROLE
placeholder stays verbatim. -/
theorem C6_amended (repl : List (Text × Text)) (p : Paragraph) (d : Document) :
    (replaceParagraph repl p).text = applyReplacements repl p.text
    ∧ (replaceInDocument repl d).paragraphs = d.paragraphs.map (replaceParagraph repl)
    ∧ applyReplacements [("NAME".data, "Ana".data), ("CITY".data, "Lisbon".data)]
        "Dear \x7b\x7bNAME\x7d\x7d, welcome to \x7b\x7bCITY\x7d\x7d.".data
      = "Dear Ana, welcome to Lisbon.".data
    ∧ applyReplacements [("NAME".data, "Ana".data), ("CITY".data, "Lisbon".data)]
        "Role: \x7b\x7bROLE\x7d\x7d".data = "Role: \x7b\x7bROLE\x7d\x7d".data := by
  refine ⟨?_, rfl, by decide, by decide⟩
  rcases eq_or_ne (applyReplacements repl p.text) p.text with heq | hne
  · simp [replaceParagraph, heq]
  · simp [replaceParagraph, hne, text_single_run]

/-- Claim C8: a paragraph whose concatenated text is changed by the
substitution ends with exactly one default-formatted run carrying the fully
substituted text, and a paragraph in which no key's placeholder occurs is
returned untouched — the same runs with the same formatting. -/
theorem C8_runs (repl : List (Text × Text)) (p : Paragraph) :
    (applyReplacements repl p.text ≠ p.text →
      replaceParagraph repl p = Paragraph.mk [Run.mk (applyReplacements repl p.text) 0])
    ∧ ((∀ kv ∈ repl, occursB (placeholderOf kv.1) p.text = false) →
      replaceParagraph repl p = p) := by
  constructor
  · intro h
    simp [replaceParagraph, h]
  · intro h
    have hid := applyReplacements_of_no_occurs repl p.text h
    simp [replaceParagraph, hid]

/-- Witness for C8 at concrete paragraphs: a placeholder spanning two runs
is collapsed into a single new run, and a paragraph without any matching
placeholder keeps its run (and its formatting value 5) untouched. -/
theorem C8_runs_witness :
    replaceParagraph [("K".data, "v".data)]
        (Paragraph.mk [Run.mk "a\x7b\x7b".data 1, Run.mk "K\x7d\x7d".data 2])
      = Paragraph.mk [Run.mk "av".data 0]
    ∧ replaceParagraph [("K".data, "v".data)] (Paragraph.mk [Run.mk "hello".data 5])
      = Paragraph.mk [Run.mk "hello".data 5] := by
  constructor
  · exact ((C8_runs [("K".data, "v".data)]
      (Paragraph.mk [Run.mk "a\x7b\x7b".data 1, Run.mk "K\x7d\x7d".data 2])).1
        (by decide)).trans (by decide)
  · exact (C8_runs [("K".data, "v".data)] (Paragraph.mk [Run.mk "hello".data 5])).2 (by decide)

/-- Claim C2, counterexample: writing pdf metadata with an empty title
stores the literal empty string under the title key — the key is present,
not absent, although the pdf information dictionary distinguishes the two —
and the pdf clear operation is not a call to the writer with four empty
fields: it produces a different file (no metadata entries at all instead of
four empty ones). -/
theorem C2_counterexample :
    (renderPdfMeta "" "C" "D" "G" pdfSample).info.lookup "/Title" = some ""
    ∧ ¬((renderPdfMeta "" "C" "D" "G" pdfSample).info.lookup "/Title" = none)
    ∧ (clear_pdf_metadata gsSample "a.pdf".data "tmpp".data FailPoint.noFail none).1 "a.pdf".data
      ≠ (write_pdf_metadata gsSample "a.pdf".data "tmpp".data "" "" "" ""
          FailPoint.noFail none).1 "a.pdf".data := by decide

/-- Claim C2, amended: for docx, an empty field value is stored as None
(absent) and the clear operation is exactly the writer called with four
empty strings; for pdf, an empty field value is stored as a literal empty
string under its key, and the clear operation does not call the writer — it
rebuilds the document with no metadata entries, so all four keys are absent. -/
theorem C2_amended (t c dsc g : String) (f : DocxFile) (pf : PdfFile)
    (fs : FS DocxFile) (path tmp : Text) (fp : FailPoint) (junk : Option DocxFile) :
    (t = "" → (renderDocxMeta t c dsc g f).props.title = none)
    ∧ (c = "" → (renderDocxMeta t c dsc g f).props.author = none
        ∧ (renderDocxMeta t c dsc g f).props.creator = none)
    ∧ (dsc = "" → (renderDocxMeta t c dsc g f).props.description = none)
    ∧ (g = "" → (renderDocxMeta t c dsc g f).props.category = none)
    ∧ clear_docx_metadata fs path tmp fp junk
      = write_docx_metadata fs path tmp "" "" "" "" fp junk
    ∧ (renderPdfMeta t c dsc g pf).info
      = [("/Title", pyOrStr t ""), ("/Author", pyOrStr c ""),
          ("/Subject", pyOrStr dsc ""), ("/Category", pyOrStr g "")]
    ∧ (t = "" → (renderPdfMeta t c dsc g pf).info.lookup "/Title" = some "")
    ∧ (renderPdfClear pf).info = [] := by
  refine ⟨fun h => ?_, fun h => ⟨?_, ?_⟩, fun h => ?_, fun h => ?_, rfl, rfl, fun h => ?_, rfl⟩
  all_goals simp_all [renderDocxMeta, renderPdfMeta, pyStrOrNone, pyOrStr, List.lookup]

/-- Witness for C2 at concrete inputs: clearing docx metadata nulls the
stored properties, the empty pdf title is stored as a present empty string,
and the cleared pdf has no metadata entries. -/
theorem C2_amended_witness :
    (renderDocxMeta "" "" "" "" docxSample).props.title = none
    ∧ (renderDocxMeta "" "" "" "" docxSample).props.author = none
    ∧ (renderPdfMeta "" "C" "D" "G" pdfSample).info.lookup "/Title" = some ""
    ∧ (renderPdfClear pdfSample).info = [] := by
  have h := C2_amended "" "" "" "" docxSample pdfSample fsSample "a.docx".data "tmpd".data
    FailPoint.noFail none
  have h2 := C2_amended "" "C" "D" "G" docxSample pdfSample fsSample "a.docx".data "tmpd".data
    FailPoint.noFail none
  exact ⟨h.1 rfl, (h.2.1 rfl).1, h2.2.2.2.2.2.2.1 rfl, h.2.2.2.2.2.2.2⟩

/-- Failure before the final move leaves the target path untouched, and
success stores exactly the rendered file there. -/
theorem writeMetaAtomic_target {α : Type} (render : α → α) (junk : Option α)
    (fs : FS α) (path tmp : Text) (fp : FailPoint) (h : tmp ≠ path) :
    ((writeMetaAtomic render junk fs path tmp fp).2 = false →
      (writeMetaAtomic render junk fs path tmp fp).1 path = fs path)
    ∧ ((writeMetaAtomic render junk fs path tmp fp).2 = true →
      ∃ f, fs path = some f
        ∧ (writeMetaAtomic render junk fs path tmp fp).1 path = some (render f)) := by
  cases hfs : fs path with
  | none => simp [writeMetaAtomic, hfs]
  | some file =>
    cases fp <;> simp [writeMetaAtomic, hfs, fsUpdate, Ne.symm h]

/-- Claim C3: for every metadata write or clear operation of either format —
docx write, docx clear, pdf write and pdf clear — whenever the operation
fails at any step before the final replace (unreadable source, failed render
of the new document, failed temporary write) the file at the target path is
exactly what it was before the attempt, and the target is replaced (by the
rendered document) only when every step up to and including the temporary
write succeeded. -/
theorem C3_atomic (fs : FS DocxFile) (gs : FS PdfFile) (dpath dtmp ppath ptmp : Text)
    (t c dsc g : String) (fp fq fe fr : FailPoint)
    (junk : Option DocxFile) (pjunk : Option PdfFile)
    (hd : dtmp ≠ dpath) (hp : ptmp ≠ ppath) :
    (((write_docx_metadata fs dpath dtmp t c dsc g fp junk).2 = false →
        (write_docx_metadata fs dpath dtmp t c dsc g fp junk).1 dpath = fs dpath)
      ∧ ((write_docx_metadata fs dpath dtmp t c dsc g fp junk).2 = true →
        ∃ f, fs dpath = some f
          ∧ (write_docx_metadata fs dpath dtmp t c dsc g fp junk).1 dpath
            = some (renderDocxMeta t c dsc g f)))
    ∧ (((write_pdf_metadata gs ppath ptmp t c dsc g fq pjunk).2 = false →
        (write_pdf_metadata gs ppath ptmp t c dsc g fq pjunk).1 ppath = gs ppath)
      ∧ ((write_pdf_metadata gs ppath ptmp t c dsc g fq pjunk).2 = true →
        ∃ f, gs ppath = some f
          ∧ (write_pdf_metadata gs ppath ptmp t c dsc g fq pjunk).1 ppath
            = some (renderPdfMeta t c dsc g f)))
    ∧ (((clear_docx_metadata fs dpath dtmp fe junk).2 = false →
        (clear_docx_metadata fs dpath dtmp fe junk).1 dpath = fs dpath)
      ∧ ((clear_docx_metadata fs dpath dtmp fe junk).2 = true →
        ∃ f, fs dpath = some f
          ∧ (clear_docx_metadata fs dpath dtmp fe junk).1 dpath
            = some (renderDocxMeta "" "" "" "" f)))
    ∧ (((clear_pdf_metadata gs ppath ptmp fr pjunk).2 = false →
        (clear_pdf_metadata gs ppath ptmp fr pjunk).1 ppath = gs ppath)
      ∧ ((clear_pdf_metadata gs ppath ptmp fr pjunk).2 = true →
        ∃ f, gs ppath = some f
          ∧ (clear_pdf_metadata gs ppath ptmp fr pjunk).1 ppath
            = some (renderPdfClear f))) :=
  ⟨writeMetaAtomic_target _ _ _ _ _ _ hd, writeMetaAtomic_target _ _ _ _ _ _ hp,
    writeMetaAtomic_target _ _ _ _ _ _ hd, writeMetaAtomic_target _ _ _ _ _ _ hp⟩

/-- Witness for C3 at concrete file systems: a docx write failing at the
temporary save, a pdf write failing at the move, a docx clear failing at the
source read and a pdf clear failing at the temporary save all leave the
stored file unchanged. -/
theorem C3_atomic_witness :
    (write_docx_metadata fsSample "a.docx".data "tmpd".data "T" "C" "D" "G"
        FailPoint.saveFail none).1 "a.docx".data = fsSample "a.docx".data
    ∧ (write_pdf_metadata gsSample "a.pdf".data "tmpp".data "T" "C" "D" "G"
        FailPoint.moveFail none).1 "a.pdf".data = gsSample "a.pdf".data
    ∧ (clear_docx_metadata fsSample "a.docx".data "tmpd".data
        FailPoint.readFail none).1 "a.docx".data = fsSample "a.docx".data
    ∧ (clear_pdf_metadata gsSample "a.pdf".data "tmpp".data
        FailPoint.saveFail none).1 "a.pdf".data = gsSample "a.pdf".data := by
  refine ⟨?_, ?_, ?_, ?_⟩
  · exact (C3_atomic fsSample gsSample "a.docx".data "tmpd".data "a.pdf".data "tmpp".data
      "T" "C" "D" "G" FailPoint.saveFail FailPoint.moveFail FailPoint.readFail
      FailPoint.saveFail none none (by decide) (by decide)).1.1 (by decide)
  · exact (C3_atomic fsSample gsSample "a.docx".data "tmpd".data "a.pdf".data "tmpp".data
      "T" "C" "D" "G" FailPoint.saveFail FailPoint.moveFail FailPoint.readFail
      FailPoint.saveFail none none (by decide) (by decide)).2.1.1 (by decide)
  · exact (C3_atomic fsSample gsSample "a.docx".data "tmpd".data "a.pdf".data "tmpp".data
      "T" "C" "D" "G" FailPoint.saveFail FailPoint.moveFail FailPoint.readFail
      FailPoint.saveFail none none (by decide) (by decide)).2.2.1.1 (by decide)
  · exact (C3_atomic fsSample gsSample "a.docx".data "tmpd".data "a.pdf".data "tmpp".data
      "T" "C" "D" "G" FailPoint.saveFail FailPoint.moveFail FailPoint.readFail
      FailPoint.saveFail none none (by decide) (by decide)).2.2.2.1 (by decide)

/-- Claim C4, counterexample: a file whose extension is neither
word-processing nor pdf makes the clear dispatch raise the plain Python
ValueError of the source, which is not one of the taxonomy classes the spec
names — none of those classes exists in the program. -/
theorem C4_counterexample :
    raisedErrorOf (clearMetadataDispatch fsSample gsSample "cv.txt".data "tmpd".data
        FailPoint.noFail)
      = some (RaisedError.valueError "Formato não suportado")
    ∧ inSpecTaxonomy (RaisedError.valueError "Formato não suportado") = false := by decide

/-- Claim C4, amended: a path whose lower-cased name ends in neither of the
two supported extensions fails with the generic
ValueError("Formato não suportado"); the taxonomy classes named by the spec
do not exist in the program, and read or write failures surface the
underlying library exceptions instead. -/
theorem C4_amended (fs : FS DocxFile) (gs : FS PdfFile) (path tmp : Text) (fp : FailPoint)
    (h1 : endsWithT (strLower path) ".docx".data = false)
    (h2 : endsWithT (strLower path) ".pdf".data = false) :
    clearMetadataDispatch fs gs path tmp fp
      = Except.error (RaisedError.valueError "Formato não suportado")
    ∧ inSpecTaxonomy (RaisedError.valueError "Formato não suportado") = false := by
  constructor
  · simp [clearMetadataDispatch, h1, h2]
  · rfl

/-- Witness for C4 at a concrete path with a text extension. -/
theorem C4_amended_witness :
    clearMetadataDispatch fsSample gsSample "cv.txt".data "tmpd".data FailPoint.noFail
      = Except.error (RaisedError.valueError "Formato não suportado")
    ∧ inSpecTaxonomy (RaisedError.valueError "Formato não suportado") = false :=
  C4_amended fsSample gsSample "cv.txt".data "tmpd".data FailPoint.noFail
    (by decide) (by decide)

/-- Claim C7: writing a record of four non-empty fields to an existing
document of either format and reading the document back yields exactly that
record. -/
theorem C7_roundtrip (fs : FS DocxFile) (gs : FS PdfFile) (dpath dtmp ppath ptmp : Text)
    (t c dsc g : String) (df : DocxFile) (pf : PdfFile)
    (junk : Option DocxFile) (pjunk : Option PdfFile)
    (hdf : fs dpath = some df) (hpf : gs ppath = some pf)
    (ht : t ≠ "") (hc : c ≠ "") (hdsc : dsc ≠ "") (hg : g ≠ "") :
    ((write_docx_metadata fs dpath dtmp t c dsc g FailPoint.noFail junk).1 dpath).map
        read_docx_metadata = some (MetadataRecord.mk t c dsc g)
    ∧ ((write_pdf_metadata gs ppath ptmp t c dsc g FailPoint.noFail pjunk).1 ppath).map
        read_pdf_metadata = some (MetadataRecord.mk t c dsc g) := by
  constructor
  · simp [write_docx_metadata, writeMetaAtomic, hdf, fsUpdate, read_docx_metadata,
      renderDocxMeta, pyOrOpt, pyOrOpt2, pyStrOrNone, ht, hc, hdsc, hg]
  · simp [write_pdf_metadata, writeMetaAtomic, hpf, fsUpdate, read_pdf_metadata,
      renderPdfMeta, pyOrStr, dictGetD, List.lookup, ht, hc, hdsc, hg]

/-- Witness for C7 at the sample files and the record of the spec's
round-trip property. -/
theorem C7_roundtrip_witness :
    ((write_docx_metadata fsSample "a.docx".data "tmpd".data "T" "C" "D" "G"
        FailPoint.noFail none).1 "a.docx".data).map read_docx_metadata
      = some (MetadataRecord.mk "T" "C" "D" "G")
    ∧ ((write_pdf_metadata gsSample "a.pdf".data "tmpp".data "T" "C" "D" "G"
        FailPoint.noFail none).1 "a.pdf".data).map read_pdf_metadata
      = some (MetadataRecord.mk "T" "C" "D" "G") :=
  C7_roundtrip fsSample gsSample "a.docx".data "tmpd".data "a.pdf".data "tmpp".data
    "T" "C" "D" "G" docxSample pdfSample none none (by decide) (by decide)
    (by decide) (by decide) (by decide) (by decide)

/-- Claim C9, counterexample: when the caller-specified destination equals
the template path, the substitutor overwrites the template file: the
operation succeeds and the file stored at the template path afterwards is
the substituted document, not the original. -/
theorem C9_counterexample :
    (replace_placeholders fsTemplate "cv.docx".data [("A".data, "x".data)] "cv.docx".data).map
        (fun fs2 => fs2 "cv.docx".data)
      = some (some (Document.mk [Paragraph.mk [Run.mk "x".data 0]] [] []))
    ∧ some (Document.mk [Paragraph.mk [Run.mk "x".data 0]] [] [])
      ≠ fsTemplate "cv.docx".data := by decide

/-- Claim C9, amended: for every readable template and every destination
path different from the template path, the substitutor stores the produced
document at the destination and the template file is left exactly as it
was; when the two paths coincide the template is overwritten instead. -/
theorem C9_amended (fs : FS Document) (tpl out : Text) (repl : List (Text × Text))
    (d : Document) (hd : fs tpl = some d) (hne : out ≠ tpl) :
    replace_placeholders fs tpl repl out
      = some (fsUpdate fs out (some (replaceInDocument repl d)))
    ∧ (fsUpdate fs out (some (replaceInDocument repl d))) tpl = fs tpl
    ∧ (fsUpdate fs out (some (replaceInDocument repl d))) out
      = some (replaceInDocument repl d) := by
  refine ⟨by simp [replace_placeholders, hd], ?_, by simp [fsUpdate]⟩
  simp [fsUpdate, Ne.symm hne]

/-- Witness for C9 at the sample template file system with a distinct
output path. -/
theorem C9_amended_witness :
    replace_placeholders fsTemplate "cv.docx".data [("A".data, "x".data)] "out.docx".data
      = some (fsUpdate fsTemplate "out.docx".data
          (some (replaceInDocument [("A".data, "x".data)] docTemplate)))
    ∧ (fsUpdate fsTemplate "out.docx".data
        (some (replaceInDocument [("A".data, "x".data)] docTemplate))) "cv.docx".data
      = fsTemplate "cv.docx".data :=
  ⟨(C9_amended fsTemplate "cv.docx".data "out.docx".data [("A".data, "x".data)] docTemplate
      (by decide) (by decide)).1,
    (C9_amended fsTemplate "cv.docx".data "out.docx".data [("A".data, "x".data)] docTemplate
      (by decide) (by decide)).2.1⟩

/-- Claim C10: a pdf metadata write stores at the target a document rebuilt
from the original's pages whose information dictionary is exactly the four
written keys — looking up any other key, such as a pre-existing producer or
creation-date entry, yields nothing — and a pdf clear stores a rebuilt
document with an empty information dictionary. -/
theorem C10_rebuild (gs : FS PdfFile) (ppath ptmp : Text) (t c dsc g : String)
    (pf : PdfFile) (pjunk : Option PdfFile) (h : gs ppath = some pf) :
    (write_pdf_metadata gs ppath ptmp t c dsc g FailPoint.noFail pjunk).1 ppath
      = some (PdfFile.mk pf.pages [("/Title", pyOrStr t ""), ("/Author", pyOrStr c ""),
          ("/Subject", pyOrStr dsc ""), ("/Category", pyOrStr g "")])
    ∧ (clear_pdf_metadata gs ppath ptmp FailPoint.noFail pjunk).1 ppath
      = some (PdfFile.mk pf.pages [])
    ∧ (∀ k, k ≠ "/Title" → k ≠ "/Author" → k ≠ "/Subject" → k ≠ "/Category" →
        (renderPdfMeta t c dsc g pf).info.lookup k = none)
    ∧ (∀ k, (renderPdfClear pf).info.lookup k = none) := by
  refine ⟨?_, ?_, ?_, fun k => rfl⟩
  · simp [write_pdf_metadata, writeMetaAtomic, h, fsUpdate, renderPdfMeta]
  · simp [clear_pdf_metadata, writeMetaAtomic, h, fsUpdate, renderPdfClear]
  · intro k h1 h2 h3 h4
    simp [renderPdfMeta, List.lookup, beq_eq_false_iff_ne.mpr h1, beq_eq_false_iff_ne.mpr h2,
      beq_eq_false_iff_ne.mpr h3, beq_eq_false_iff_ne.mpr h4]

/-- Witness for C10 at the sample pdf, whose pre-existing producer entry is
discarded by the write. -/
theorem C10_rebuild_witness :
    (write_pdf_metadata gsSample "a.pdf".data "tmpp".data "T" "C" "D" "G"
        FailPoint.noFail none).1 "a.pdf".data
      = some (PdfFile.mk [1] [("/Title", "T"), ("/Author", "C"),
          ("/Subject", "D"), ("/Category", "G")])
    ∧ (renderPdfMeta "T" "C" "D" "G" pdfSample).info.lookup "/Producer" = none := by
  have h := C10_rebuild gsSample "a.pdf".data "tmpp".data "T" "C" "D" "G" pdfSample none
    (by decide)
  exact ⟨h.1.trans (by decide),
    h.2.2.1 "/Producer" (by decide) (by decide) (by decide) (by decide)⟩

end CurriculumApp
